import Mathlib

/-!
Verification of the Simple Banking System (`banking.py`).

The development shallowly embeds the program's data model and operations:

* `Card.calculate_luhn_checksum` — the Luhn check-digit computation over a
  string of decimal digits (a Python `ValueError` on a non-digit character is
  modelled as `Option.none`);
* `Card.is_valid_card_number` — validator comparing the recomputed checksum
  with the final character;
* `Card.__create_card` — identifier generation from the fixed issuer
  prefix `400000`, the random draw `randint(1, 999999999)` zero-padded to
  nine digits, and the trailing checksum digit;
* the SQLite table `card` as a list of records, `check_card`,
  `update_balance` (UPDATE ... SET balance = balance + ? followed by a
  re-read of the stored balance) and `SimpleBankingSystem.__do_transfer`;
* the user-level operations (create account, add income, transfer, close
  account) as a step function on the stored table, for reachability
  arguments.

Python's unbounded `int` is modelled as `Int` (`Nat` where the source value
is a count or digit), strings as `List Char`, and exceptions as `Option` /
explicit result constructors.
-/

namespace Banking

/-- One Luhn doubling step: double the digit and subtract 9 when the result
exceeds 9 (as in `digits[i] = digits[i] * 2; if digits[i] > 9: digits[i] -= 9`). -/
def luhnDouble (d : Nat) : Nat :=
  if d * 2 > 9 then d * 2 - 9 else d * 2

/-- The in-place loop `for i in range(len(digits) - 1, -1, -2)` walks from the
last digit towards the front, transforming every second digit.  On the
reversed digit list this is an alternation that starts by doubling. -/
def luhnAlt : Bool → List Nat → List Nat
  | _, [] => []
  | b, d :: ds => (if b then luhnDouble d else d) :: luhnAlt (!b) ds

/-- `calculate_luhn_checksum` on an already-parsed digit list: transform,
sum, and return `(10 - total_sum % 10) % 10`. -/
def luhnChecksumDigits (digits : List Nat) : Nat :=
  (10 - (luhnAlt true digits.reverse).sum % 10) % 10

/-- Python `int(c)` for a single character: the digit value, or a
`ValueError` (modelled `none`) when the character is not a decimal digit. -/
def charToDigit (c : Char) : Option Nat :=
  if c.isDigit then some (c.toNat - '0'.toNat) else none

/-- `[int(digit) for digit in account_number]`: parse each character in
order, propagating a `ValueError` (`none`). -/
def strToDigits : List Char → Option (List Nat)
  | [] => some []
  | c :: cs =>
    match charToDigit c, strToDigits cs with
    | some d, some ds => some (d :: ds)
    | _, _ => none

/-- The decimal character of a digit, as produced by `str(checksum)` and the
`d`-format specifier for values below 10. -/
def digitToChar (d : Nat) : Char :=
  Char.ofNat ('0'.toNat + d)

/-- `Card.calculate_luhn_checksum(account_number)`: parse the string into
digits and compute the Luhn check digit; `none` models the `ValueError`
raised by `int(...)` on a non-digit character. -/
def calculate_luhn_checksum (s : List Char) : Option Nat :=
  (strToDigits s).map luhnChecksumDigits

/-- `Card.is_valid_card_number(number)`: recompute the checksum over
`number[:-1]` and compare its decimal character with `number[-1]`.
`none` models an uncaught exception: a `ValueError` from a non-digit among
the leading characters, or the `IndexError` of `number[-1]` on the empty
string. -/
def is_valid_card_number (number : List Char) : Option Bool :=
  match calculate_luhn_checksum number.dropLast with
  | none => none
  | some checksum =>
    match number.getLast? with
    | none => none
    | some last => some (digitToChar checksum = last : Bool)

/-- Little-endian decimal digits computed with explicit fuel, so the kernel
can evaluate it (`digitsRevFuel n n` suffices since `n / 10 < n`). -/
def digitsRevFuel : Nat → Nat → List Nat
  | 0, _ => []
  | _, 0 => []
  | fuel + 1, n + 1 => ((n + 1) % 10) :: digitsRevFuel fuel ((n + 1) / 10)

/-- Little-endian decimal digits of `n` (empty for `0`). -/
def digitsRev (n : Nat) : List Nat :=
  digitsRevFuel n n

/-- The decimal representation of `n`, most significant digit first, as
characters (empty for `0`, matching the padded f-string below). -/
def natRepr (n : Nat) : List Char :=
  (digitsRev n).reverse.map digitToChar

/-- Python `f'{n:09d}'`: the decimal representation left-padded with `'0'`
to width 9. -/
def pad9 (n : Nat) : List Char :=
  List.replicate (9 - (natRepr n).length) '0' ++ natRepr n

/-- Python `f'{n:04d}'`: the decimal representation left-padded with `'0'`
to width 4, used for the PIN. -/
def pad4 (n : Nat) : List Char :=
  List.replicate (4 - (natRepr n).length) '0' ++ natRepr n

/-- The fixed issuer prefix `inn = '400000'`. -/
def inn : List Char := '4' :: '0' :: '0' :: '0' :: '0' :: '0' :: []

/-- `Card.__create_card`, with the value of `randint(1, 999999999)` passed
explicitly as `r`: build `f'{inn}{r:09d}'`, compute its Luhn checksum and
append the checksum digit.  The source string is all digits, so the
`none` branch of the checksum parse is unreachable (proved below). -/
def create_card (r : Nat) : List Char :=
  match calculate_luhn_checksum (inn ++ pad9 r) with
  | some checksum => (inn ++ pad9 r) ++ [digitToChar checksum]
  | none => []

/-- A row of the SQLite table `card` (the `id` column is never read; row
order models insertion order). -/
structure CardRec where
  number : List Char
  pin : List Char
  balance : Int
deriving DecidableEq, Repr

/-- The `card` table. -/
abbrev Db := List CardRec

/-- Effect of `UPDATE card SET balance = balance + ? WHERE number = ?`
on a single row. -/
def updRow (number : List Char) (money : Int) (r : CardRec) : CardRec :=
  if r.number = number then { r with balance := r.balance + money } else r

/-- `UPDATE card SET balance = balance + ? WHERE number = ?` over the table
(every matching row is incremented). -/
def updateDb (db : Db) (number : List Char) (money : Int) : Db :=
  db.map (updRow number money)

/-- `SELECT ... FROM card WHERE number = ?` followed by `fetchone()`:
the first matching row, if any. -/
def check_card (db : Db) (number : List Char) : Option CardRec :=
  db.find? (fun r => r.number = number)

/-- `SELECT ... FROM card WHERE number = ? AND pin = ?` followed by
`fetchone()`: used by `Card.check_card` when a PIN is supplied (login). -/
def check_card_pin (db : Db) (number pin : List Char) : Option CardRec :=
  db.find? (fun r => r.number = number ∧ r.pin = pin)

/-- `Card.update_balance(money)` as seen from a `Card` object `card`:
run the UPDATE, then `SELECT balance ... fetchone()` and store the result
into `self.balance`.  When no row matches, `fetchone()` returns `None` and
`result[0]` raises a `TypeError`; that crash is modelled as `none`. -/
def card_update_balance (db : Db) (card : CardRec) (money : Int) :
    Db × Option CardRec :=
  let db' := updateDb db card.number money
  match check_card db' card.number with
  | none => (db', none)
  | some row => (db', some { card with balance := row.balance })

/-- Outcome of `SimpleBankingSystem.__do_transfer`.  The first four
constructors are the four `TransactionError` raises, in source order;
`ok` is the success path; `fatal` models an exception that is not a
`TransactionError` (e.g. `ValueError` from `int(...)` inside
`is_valid_card_number`) and therefore escapes the `except` clause. -/
inductive TransferResult where
  | selfTransfer
  | invalidNumber
  | unknownAccount
  | notEnoughMoney
  | ok
  | fatal
deriving DecidableEq, Repr

/-- Whether the outcome is caught by `except TransactionError` (and hence
reported as a message, with control returning to the command loop). -/
def caughtByHandler : TransferResult → Bool
  | .selfTransfer => true
  | .invalidNumber => true
  | .unknownAccount => true
  | .notEnoughMoney => true
  | .ok => false
  | .fatal => false

/-- `SimpleBankingSystem.__do_transfer`, with the prompted destination
`number` and `transfer_money` passed as arguments and the logged-in card
`self.card` as `src`.  Returns the outcome, the table after the call, and
the in-memory `self.card` after the call. -/
def do_transfer (db : Db) (src : CardRec) (number : List Char)
    (money : Int) : TransferResult × Db × CardRec :=
  if number = src.number then (.selfTransfer, db, src)
  else
    match is_valid_card_number number with
    | none => (.fatal, db, src)
    | some false => (.invalidNumber, db, src)
    | some true =>
      match check_card db number with
      | none => (.unknownAccount, db, src)
      | some transfer_card =>
        if money > src.balance then (.notEnoughMoney, db, src)
        else
          match card_update_balance db src (money * -1) with
          | (db1, none) => (.fatal, db1, src)
          | (db1, some src') =>
            match card_update_balance db1 transfer_card money with
            | (db2, none) => (.fatal, db2, src')
            | (db2, some _) => (.ok, db2, src')

/-- A user-level operation of the command loop.  `create` carries the two
random draws (`randint(1, 999999999)` for the card number and
`randint(1, 9999)` for the PIN).  The balance-affecting operations carry
the login credentials: the menu only reaches them with `self.card` set,
and `self.card` is set exactly by a successful `check_card` lookup. -/
inductive Op where
  | create (r : Nat) (p : Nat)
  | addIncome (number pin : List Char) (income : Int)
  | transfer (srcNumber srcPin : List Char) (number : List Char) (money : Int)
  | closeAccount (number pin : List Char)
deriving DecidableEq, Repr

/-- `Card.__save_to_db`: `INSERT INTO card (number, pin, balance)` appends a
row; `Card.__init__` starts the balance at 0. -/
def insertCard (db : Db) (r p : Nat) : Db :=
  db ++ [⟨create_card r, pad4 p, 0⟩]

/-- `Card.delete_card`: `DELETE FROM card WHERE number = ?`. -/
def deleteCard (db : Db) (number : List Char) : Db :=
  db.filter (fun row => ¬ row.number = number)

/-- Effect of one operation on the stored table.  A failed login leaves
`self.card` unset, so the balance-affecting body never runs and the table
is unchanged. -/
def applyOp (db : Db) : Op → Db
  | .create r p => insertCard db r p
  | .addIncome number pin income =>
    match check_card_pin db number pin with
    | none => db
    | some card => (card_update_balance db card income).1
  | .transfer srcNumber srcPin number money =>
    match check_card_pin db srcNumber srcPin with
    | none => db
    | some src => (do_transfer db src number money).2.1
  | .closeAccount number pin =>
    match check_card_pin db number pin with
    | none => db
    | some card => deleteCard db card.number

/-- Run a sequence of operations from a starting table (the program starts
from the table as it exists on disk; `[]` for a fresh database). -/
def applyOps (db : Db) (ops : List Op) : Db :=
  ops.foldl applyOp db

/-- The random draws of the account-creation operations in a sequence. -/
def createDraws (ops : List Op) : List Nat :=
  ops.filterMap (fun op => match op with | .create r _ => some r | _ => none)

/-- Exactly one stored record per identifier. -/
def uniqueIdentifiers (db : Db) : Prop :=
  (db.map CardRec.number).Nodup

instance (db : Db) : Decidable (uniqueIdentifiers db) := by
  unfold uniqueIdentifiers; infer_instance

/-! ### The checksum algorithm as the specification words it

The spec describes `computeChecksumDigit` positionally: counting from the
rightmost digit of the input (distance 0) and moving left, every digit at
even distance from the end is doubled, with 9 subtracted when the doubled
value exceeds 9; the checksum is `(10 - sum % 10) % 10`.  These definitions
follow that wording; the claim `C1` relates them to the embedded code. -/

/-- Spec wording: the digit at distance `j` from the rightmost digit is
doubled when `j` is even (the rightmost digit itself is at the start of the
alternation), and 9 is subtracted from a doubled digit exceeding 9. -/
def luhnSpecTransform (j d : Nat) : Nat :=
  if j % 2 = 0 then (if d * 2 > 9 then d * 2 - 9 else d * 2) else d

/-- Spec wording: sum of all (possibly transformed) digits, indexing by
distance from the end of the input. -/
def luhnSpecSum (digits : List Nat) : Nat :=
  (digits.reverse.mapIdx luhnSpecTransform).sum

/-- Spec wording: `(10 - (sum mod 10)) mod 10`. -/
def luhnSpecChecksum (digits : List Nat) : Nat :=
  (10 - luhnSpecSum digits % 10) % 10

/-- The numeric value of a decimal character string (most significant digit
first); used to reason about the zero-padded random segment. -/
def valOfChars (s : List Char) : Nat :=
  s.foldl (fun acc c => 10 * acc + (c.toNat - '0'.toNat)) 0

end Banking

namespace Banking

/-! ### Helper lemmas -/

lemma luhnAlt_sum (l : List Nat) :
    ∀ k : Nat, (luhnAlt (k % 2 = 0 : Bool) l).sum =
      (l.mapIdx (fun i d => luhnSpecTransform (i + k) d)).sum := by
  induction l with
  | nil => intro k; simp [luhnAlt]
  | cons d ds ih =>
    intro k
    have hb : (!(k % 2 = 0 : Bool)) = ((k + 1) % 2 = 0 : Bool) := by
      rcases Nat.even_or_odd k with h | h
      · have h0 : k % 2 = 0 := Nat.even_iff.mp h
        have h1 : (k + 1) % 2 = 1 := by omega
        simp [h0, h1]
      · have h0 : k % 2 = 1 := Nat.odd_iff.mp h
        have h1 : (k + 1) % 2 = 0 := by omega
        simp [h0, h1]
    have hfun : (fun i e => luhnSpecTransform (i + 1 + k) e) =
        (fun i e => luhnSpecTransform (i + (k + 1)) e) := by
      funext i e
      have : i + 1 + k = i + (k + 1) := by omega
      rw [this]
    have hhead : (if (k % 2 = 0 : Bool) then luhnDouble d else d) =
        luhnSpecTransform (0 + k) d := by
      by_cases h : k % 2 = 0
      · simp [h, luhnSpecTransform, luhnDouble, Nat.zero_add]
      · simp [h, luhnSpecTransform, Nat.zero_add]
    calc (luhnAlt (k % 2 = 0 : Bool) (d :: ds)).sum
        = (if (k % 2 = 0 : Bool) then luhnDouble d else d) +
            (luhnAlt (!(k % 2 = 0 : Bool)) ds).sum := by
          simp [luhnAlt]
      _ = luhnSpecTransform (0 + k) d +
            (luhnAlt ((k + 1) % 2 = 0 : Bool) ds).sum := by rw [hhead, hb]
      _ = luhnSpecTransform (0 + k) d +
            (ds.mapIdx (fun i e => luhnSpecTransform (i + (k + 1)) e)).sum := by
          rw [ih (k + 1)]
      _ = ((d :: ds).mapIdx (fun i e => luhnSpecTransform (i + k) e)).sum := by
          rw [List.mapIdx_cons]
          simp only [List.sum_cons]
          rw [hfun]

lemma luhnChecksumDigits_eq_spec (digits : List Nat) :
    luhnChecksumDigits digits = luhnSpecChecksum digits := by
  have h := luhnAlt_sum digits.reverse 0
  have hb : ((0 : Nat) % 2 = 0 : Bool) = true := by decide
  rw [hb] at h
  have hf : (fun (i : Nat) (d : Nat) => luhnSpecTransform (i + 0) d) =
      luhnSpecTransform := by
    funext i d
    rw [Nat.add_zero]
  rw [hf] at h
  unfold luhnChecksumDigits luhnSpecChecksum luhnSpecSum
  rw [h]

/-- The digit value read back from a digit character. -/
lemma digitToChar_val : ∀ d : Nat, d < 10 → (digitToChar d).toNat - '0'.toNat = d := by
  decide

lemma digitToChar_isDigit : ∀ d : Nat, d < 10 → (digitToChar d).isDigit = true := by
  decide

lemma digitToChar_eq_zero_iff : ∀ d : Nat, d < 10 → (digitToChar d = '0' ↔ d = 0) := by
  decide

lemma digitToChar_inj :
    ∀ d : Nat, d < 10 → ∀ e : Nat, e < 10 → digitToChar d = digitToChar e → d = e := by
  decide

lemma luhnChecksumDigits_lt (digits : List Nat) : luhnChecksumDigits digits < 10 := by
  unfold luhnChecksumDigits
  omega

lemma charToDigit_of_isDigit {c : Char} (h : c.isDigit = true) :
    charToDigit c = some (c.toNat - '0'.toNat) := by
  unfold charToDigit
  rw [h]
  simp

lemma strToDigits_of_all_digits {s : List Char} (h : ∀ c ∈ s, c.isDigit = true) :
    strToDigits s = some (s.map (fun c => c.toNat - '0'.toNat)) := by
  induction s with
  | nil => rfl
  | cons c cs ih =>
    have hc : c.isDigit = true := h c (List.mem_cons_self c cs)
    have hcs := ih (fun x hx => h x (List.mem_cons_of_mem c hx))
    unfold strToDigits
    rw [charToDigit_of_isDigit hc, hcs]
    rfl

lemma strToDigits_isSome_iff (s : List Char) :
    (∃ ds, strToDigits s = some ds) ↔ ∀ c ∈ s, c.isDigit = true := by
  induction s with
  | nil => simp [strToDigits]
  | cons c cs ih =>
    constructor
    · rintro ⟨ds, hds⟩
      unfold strToDigits at hds
      by_cases hc : c.isDigit = true
      · intro x hx
        rcases List.mem_cons.mp hx with rfl | hx'
        · exact hc
        · rcases h' : strToDigits cs with _ | ds'
          · rw [charToDigit_of_isDigit hc, h'] at hds
            exact absurd hds (by simp)
          · exact (ih.mp ⟨ds', h'⟩) x hx'
      · exfalso
        have : charToDigit c = none := by
          unfold charToDigit
          rw [Bool.eq_false_iff.mpr hc]
          simp
        rw [this] at hds
        exact absurd hds (by simp)
    · intro h
      refine ⟨(c :: cs).map (fun x => x.toNat - '0'.toNat), ?_⟩
      exact strToDigits_of_all_digits h

/-- Appending the computed checksum digit always yields a string the
validator accepts: the core of claims about self-consistency. -/
lemma valid_append_checksum {s : List Char} {ds : List Nat}
    (h : strToDigits s = some ds) :
    is_valid_card_number (s ++ [digitToChar (luhnChecksumDigits ds)]) = some true := by
  unfold is_valid_card_number calculate_luhn_checksum
  rw [List.dropLast_concat, h, List.getLast?_concat]
  simp

lemma updRow_number (n : List Char) (m : Int) (r : CardRec) :
    (updRow n m r).number = r.number := by
  unfold updRow
  split <;> rfl

lemma updRow_of_eq {n : List Char} {r : CardRec} (h : r.number = n) (m : Int) :
    updRow n m r = { r with balance := r.balance + m } := by
  unfold updRow
  rw [if_pos h]

lemma updRow_of_ne {n : List Char} {r : CardRec} (h : ¬ r.number = n) (m : Int) :
    updRow n m r = r := by
  unfold updRow
  rw [if_neg h]

lemma check_card_updateDb (db : Db) (n k : List Char) (m : Int) :
    check_card (updateDb db n m) k = (check_card db k).map (updRow n m) := by
  unfold check_card updateDb
  rw [List.find?_map]
  have hp : ((fun r => decide (r.number = k)) ∘ updRow n m) =
      (fun r : CardRec => decide (r.number = k)) := by
    funext r
    simp [Function.comp, updRow_number]
  rw [hp]

lemma check_card_number {db : Db} {n : List Char} {r : CardRec}
    (h : check_card db n = some r) : r.number = n := by
  have := List.find?_some h
  simpa using this

lemma check_card_mem {db : Db} {n : List Char} {r : CardRec}
    (h : check_card db n = some r) : r ∈ db :=
  List.mem_of_find?_eq_some h

lemma updateDb_map_number (db : Db) (n : List Char) (m : Int) :
    (updateDb db n m).map CardRec.number = db.map CardRec.number := by
  unfold updateDb
  rw [List.map_map]
  congr 1
  funext r
  exact updRow_number n m r

lemma card_update_balance_of_found {db : Db} {card row : CardRec} {m : Int}
    (h : check_card db card.number = some row) :
    card_update_balance db card m =
      (updateDb db card.number m, some { card with balance := row.balance + m }) := by
  unfold card_update_balance
  dsimp only
  rw [check_card_updateDb, h]
  have hr : row.number = card.number := check_card_number h
  rw [Option.map_some', updRow_of_eq hr]

lemma card_update_balance_of_missing {db : Db} {card : CardRec} {m : Int}
    (h : check_card db card.number = none) :
    card_update_balance db card m = (updateDb db card.number m, none) := by
  unfold card_update_balance
  dsimp only
  rw [check_card_updateDb, h]
  rfl

lemma do_transfer_self {src : CardRec} {number : List Char} (db : Db)
    (money : Int) (h : number = src.number) :
    do_transfer db src number money = (.selfTransfer, db, src) := by
  unfold do_transfer
  rw [if_pos h]

lemma do_transfer_fatal_parse {src : CardRec} {number : List Char} (db : Db)
    (money : Int) (h1 : ¬ number = src.number)
    (h2 : is_valid_card_number number = none) :
    do_transfer db src number money = (.fatal, db, src) := by
  unfold do_transfer
  rw [if_neg h1, h2]

lemma do_transfer_invalid {src : CardRec} {number : List Char} (db : Db)
    (money : Int) (h1 : ¬ number = src.number)
    (h2 : is_valid_card_number number = some false) :
    do_transfer db src number money = (.invalidNumber, db, src) := by
  unfold do_transfer
  rw [if_neg h1, h2]

lemma do_transfer_unknown {db : Db} {src : CardRec} {number : List Char}
    (money : Int) (h1 : ¬ number = src.number)
    (h2 : is_valid_card_number number = some true)
    (h3 : check_card db number = none) :
    do_transfer db src number money = (.unknownAccount, db, src) := by
  unfold do_transfer
  rw [if_neg h1, h2, h3]

lemma do_transfer_insufficient {db : Db} {src tc : CardRec} {number : List Char}
    {money : Int} (h1 : ¬ number = src.number)
    (h2 : is_valid_card_number number = some true)
    (h3 : check_card db number = some tc) (h4 : money > src.balance) :
    do_transfer db src number money = (.notEnoughMoney, db, src) := by
  unfold do_transfer
  rw [if_neg h1, h2, h3]
  dsimp only
  rw [if_pos h4]

lemma do_transfer_fatal_src {db : Db} {src tc : CardRec} {number : List Char}
    {money : Int} (h1 : ¬ number = src.number)
    (h2 : is_valid_card_number number = some true)
    (h3 : check_card db number = some tc) (h4 : ¬ money > src.balance)
    (h5 : check_card db src.number = none) :
    do_transfer db src number money =
      (.fatal, updateDb db src.number (money * -1), src) := by
  unfold do_transfer
  rw [if_neg h1, h2, h3]
  dsimp only
  rw [if_neg h4, card_update_balance_of_missing h5]

lemma do_transfer_ok {db : Db} {src tc srow : CardRec} {number : List Char}
    {money : Int} (h1 : ¬ number = src.number)
    (h2 : is_valid_card_number number = some true)
    (h3 : check_card db number = some tc) (h4 : ¬ money > src.balance)
    (h5 : check_card db src.number = some srow) :
    do_transfer db src number money =
      (.ok, updateDb (updateDb db src.number (money * -1)) tc.number money,
        { src with balance := srow.balance + money * -1 }) := by
  unfold do_transfer
  rw [if_neg h1, h2, h3]
  dsimp only
  rw [if_neg h4, card_update_balance_of_found h5]
  dsimp only
  have h6 : check_card (updateDb db src.number (money * -1)) tc.number =
      some (updRow src.number (money * -1) tc) := by
    rw [check_card_updateDb, check_card_number h3, h3, Option.map_some']
  rw [card_update_balance_of_found h6]

lemma do_transfer_caught_no_mutation (db : Db) (src : CardRec)
    (number : List Char) (money : Int)
    (h : caughtByHandler (do_transfer db src number money).1 = true) :
    (do_transfer db src number money).2.1 = db ∧
      (do_transfer db src number money).2.2 = src := by
  by_cases h1 : number = src.number
  · rw [do_transfer_self db money h1]
    exact ⟨rfl, rfl⟩
  · rcases hv : is_valid_card_number number with _ | b
    · rw [do_transfer_fatal_parse db money h1 hv]
      exact ⟨rfl, rfl⟩
    · cases b with
      | false =>
        rw [do_transfer_invalid db money h1 hv]
        exact ⟨rfl, rfl⟩
      | true =>
        rcases htc : check_card db number with _ | tc
        · rw [do_transfer_unknown money h1 hv htc]
          exact ⟨rfl, rfl⟩
        · by_cases hm : money > src.balance
          · rw [do_transfer_insufficient h1 hv htc hm]
            exact ⟨rfl, rfl⟩
          · rcases hs : check_card db src.number with _ | srow
            · rw [do_transfer_fatal_src h1 hv htc hm hs] at h
              exact absurd h (by simp [caughtByHandler])
            · rw [do_transfer_ok h1 hv htc hm hs] at h
              exact absurd h (by simp [caughtByHandler])

lemma updRow_zero (n : List Char) (r : CardRec) : updRow n 0 r = r := by
  unfold updRow
  split
  · simp
  · rfl

lemma updRow_updRow_same (n : List Char) (m1 m2 : Int) (r : CardRec) :
    updRow n m2 (updRow n m1 r) = updRow n (m1 + m2) r := by
  by_cases h : r.number = n
  · simp [updRow, h, Int.add_assoc]
  · simp [updRow, h]

lemma updateDb_zero (db : Db) (n : List Char) : updateDb db n 0 = db := by
  unfold updateDb
  exact List.map_id'' (updRow_zero n) db

lemma updateDb_updateDb_same (db : Db) (n : List Char) (m1 m2 : Int) :
    updateDb (updateDb db n m1) n m2 = updateDb db n (m1 + m2) := by
  unfold updateDb
  rw [List.map_map]
  exact List.map_congr_left (fun r _ => updRow_updRow_same n m1 m2 r)

end Banking

namespace Banking

/-! ### Claims -/

/-- C1: `calculate_luhn_checksum` implements the Luhn check-digit
algorithm: anchored at the rightmost digit of the input and moving left,
every second digit is doubled, 9 is subtracted from a doubled digit
exceeding 9, the (possibly transformed) digits are summed and the checksum
is `(10 - sum % 10) % 10` — the digit making the total including the
checksum a multiple of 10.  The function is a pure function of the digit
string: the string-level entry point returns exactly this value on any
string that parses. -/
theorem luhn_checksum_implements_spec (digits : List Nat) :
    luhnChecksumDigits digits = luhnSpecChecksum digits ∧
    (luhnSpecSum digits + luhnChecksumDigits digits) % 10 = 0 ∧
    (∀ s ds, strToDigits s = some ds →
      calculate_luhn_checksum s = some (luhnSpecChecksum ds)) := by
  refine ⟨luhnChecksumDigits_eq_spec digits, ?_, ?_⟩
  · rw [luhnChecksumDigits_eq_spec digits]
    unfold luhnSpecChecksum
    omega
  · intro s ds hds
    unfold calculate_luhn_checksum
    rw [hds]
    simp [luhnChecksumDigits_eq_spec]

/-- Witness for C1 at the concrete account number `400000123456789`. -/
theorem luhn_checksum_implements_spec_witness :
    calculate_luhn_checksum
        ('4' :: '0' :: '0' :: '0' :: '0' :: '0' :: '1' :: '2' :: '3' :: '4' ::
          '5' :: '6' :: '7' :: '8' :: '9' :: []) =
      some (luhnSpecChecksum (4 :: 0 :: 0 :: 0 :: 0 :: 0 :: 1 :: 2 :: 3 :: 4 ::
        5 :: 6 :: 7 :: 8 :: 9 :: [])) :=
  (luhn_checksum_implements_spec []).2.2
    ('4' :: '0' :: '0' :: '0' :: '0' :: '0' :: '1' :: '2' :: '3' :: '4' ::
      '5' :: '6' :: '7' :: '8' :: '9' :: [])
    (4 :: 0 :: 0 :: 0 :: 0 :: 0 :: 1 :: 2 :: 3 :: 4 :: 5 :: 6 :: 7 :: 8 :: 9 :: [])
    (by decide)

/-- C2: appending the checksum digit computed over a 15-digit string yields
a string the validator accepts. -/
theorem append_checksum_is_valid (s : List Char) (h15 : s.length = 15)
    (hdig : ∀ c ∈ s, c.isDigit = true) :
    ∃ k, calculate_luhn_checksum s = some k ∧
      is_valid_card_number (s ++ [digitToChar k]) = some true := by
  obtain ⟨ds, hds⟩ := (strToDigits_isSome_iff s).mpr hdig
  refine ⟨luhnChecksumDigits ds, ?_, valid_append_checksum hds⟩
  unfold calculate_luhn_checksum
  rw [hds]
  rfl

/-- Witness for C2 at the concrete 15-digit string `400000123456789`. -/
theorem append_checksum_is_valid_witness :
    ∃ k, calculate_luhn_checksum
        ('4' :: '0' :: '0' :: '0' :: '0' :: '0' :: '1' :: '2' :: '3' :: '4' ::
          '5' :: '6' :: '7' :: '8' :: '9' :: []) = some k ∧
      is_valid_card_number
        (('4' :: '0' :: '0' :: '0' :: '0' :: '0' :: '1' :: '2' :: '3' :: '4' ::
          '5' :: '6' :: '7' :: '8' :: '9' :: []) ++ [digitToChar k]) = some true :=
  append_checksum_is_valid
    ('4' :: '0' :: '0' :: '0' :: '0' :: '0' :: '1' :: '2' :: '3' :: '4' ::
      '5' :: '6' :: '7' :: '8' :: '9' :: [])
    (by decide) (by decide)

/-- C3: `__do_transfer` performs its four validation checks in source
order, short-circuiting on the first failure with the corresponding
`TransactionError`: (1) destination equal to the source's own number,
(2) destination failing the Luhn validator, (3) destination not found in
storage, (4) amount greater than the source's (in-memory) balance;
otherwise the source rows are debited first and the destination rows
credited second.  The success conclusion assumes the source's own row is
stored, as it is for any logged-in card. -/
theorem do_transfer_checks_in_order (db : Db) (src : CardRec)
    (number : List Char) (money : Int) :
    (number = src.number →
      do_transfer db src number money = (.selfTransfer, db, src)) ∧
    (¬ number = src.number → is_valid_card_number number = some false →
      do_transfer db src number money = (.invalidNumber, db, src)) ∧
    (¬ number = src.number → is_valid_card_number number = some true →
      check_card db number = none →
      do_transfer db src number money = (.unknownAccount, db, src)) ∧
    (∀ tc, ¬ number = src.number → is_valid_card_number number = some true →
      check_card db number = some tc → money > src.balance →
      do_transfer db src number money = (.notEnoughMoney, db, src)) ∧
    (∀ tc srow, ¬ number = src.number →
      is_valid_card_number number = some true →
      check_card db number = some tc → ¬ money > src.balance →
      check_card db src.number = some srow →
      do_transfer db src number money =
        (.ok, updateDb (updateDb db src.number (money * -1)) tc.number money,
          { src with balance := srow.balance + money * -1 })) := by
  refine ⟨?_, ?_, ?_, ?_, ?_⟩
  · intro h1
    exact do_transfer_self db money h1
  · intro h1 h2
    exact do_transfer_invalid db money h1 h2
  · intro h1 h2 h3
    exact do_transfer_unknown money h1 h2 h3
  · intro tc h1 h2 h3 h4
    exact do_transfer_insufficient h1 h2 h3 h4
  · intro tc srow h1 h2 h3 h4 h5
    exact do_transfer_ok h1 h2 h3 h4 h5

/-- Witness for C3: a transfer to the source's own number fails with the
self-transfer error and leaves the (empty) table unchanged. -/
theorem do_transfer_checks_in_order_witness :
    do_transfer [] ⟨['1'], ['2'], 7⟩ ['1'] 3 =
      (.selfTransfer, [], ⟨['1'], ['2'], 7⟩) :=
  (do_transfer_checks_in_order [] ⟨['1'], ['2'], 7⟩ ['1'] 3).1 rfl

/-- C4: whenever any of the four validation steps of `__do_transfer`
fails, no mutation happens — the stored table and the in-memory card are
exactly as before the call — and the failure is a `TransactionError`
caught by the handler (recoverable), not a process-fatal exception. -/
theorem do_transfer_failure_no_mutation (db : Db) (src : CardRec)
    (number : List Char) (money : Int) (res : TransferResult) (db' : Db)
    (card' : CardRec)
    (heq : do_transfer db src number money = (res, db', card'))
    (hres : res = .selfTransfer ∨ res = .invalidNumber ∨
      res = .unknownAccount ∨ res = .notEnoughMoney) :
    db' = db ∧ card' = src ∧ caughtByHandler res = true := by
  have h1 : caughtByHandler res = true := by
    rcases hres with rfl | rfl | rfl | rfl <;> rfl
  have h2 : caughtByHandler (do_transfer db src number money).1 = true := by
    rw [heq]
    exact h1
  have h3 := do_transfer_caught_no_mutation db src number money h2
  rw [heq] at h3
  exact ⟨h3.1, h3.2, h1⟩

/-- Witness for C4: an insufficient-funds failure on a one-row table
leaves it unchanged. -/
theorem do_transfer_failure_no_mutation_witness :
    ([⟨['0'], ['9'], 1⟩, ⟨['0', '0'], ['8'], 0⟩] : Db) =
        [⟨['0'], ['9'], 1⟩, ⟨['0', '0'], ['8'], 0⟩] ∧
      (⟨['0'], ['9'], 1⟩ : CardRec) = ⟨['0'], ['9'], 1⟩ ∧
      caughtByHandler .notEnoughMoney = true :=
  do_transfer_failure_no_mutation [⟨['0'], ['9'], 1⟩, ⟨['0', '0'], ['8'], 0⟩]
    ⟨['0'], ['9'], 1⟩ ['0', '0'] 5 .notEnoughMoney
    [⟨['0'], ['9'], 1⟩, ⟨['0', '0'], ['8'], 0⟩] ⟨['0'], ['9'], 1⟩
    (by decide) (by simp)

/-- C7: `update_balance` applies the increment to every stored row with the
card's number, then re-reads the authoritative post-update balance from
storage into the in-memory record, so that afterwards the in-memory
balance equals the stored balance, which is the prior stored balance plus
the delta. -/
theorem update_balance_rereads_authoritative (db : Db) (card row : CardRec)
    (money : Int) (h : check_card db card.number = some row) :
    card_update_balance db card money =
      (updateDb db card.number money,
        some { card with balance := row.balance + money }) ∧
    (check_card (updateDb db card.number money) card.number).map
        CardRec.balance = some (row.balance + money) ∧
    (∀ r ∈ db, r.number = card.number →
      updRow card.number money r = { r with balance := r.balance + money }) := by
  refine ⟨card_update_balance_of_found h, ?_, ?_⟩
  · rw [check_card_updateDb, h, Option.map_some',
      updRow_of_eq (check_card_number h), Option.map_some']
  · intro r _ hr
    exact updRow_of_eq hr money

/-- Witness for C7 on a concrete two-row table. -/
theorem update_balance_rereads_authoritative_witness :
    card_update_balance [⟨['5'], ['1'], 3⟩, ⟨['6'], ['2'], 4⟩]
        ⟨['6'], ['2'], 4⟩ 10 =
      (updateDb [⟨['5'], ['1'], 3⟩, ⟨['6'], ['2'], 4⟩] ['6'] 10,
        some ⟨['6'], ['2'], 14⟩) ∧
    (check_card (updateDb [⟨['5'], ['1'], 3⟩, ⟨['6'], ['2'], 4⟩] ['6'] 10)
        ['6']).map CardRec.balance = some 14 ∧
    (∀ r ∈ ([⟨['5'], ['1'], 3⟩, ⟨['6'], ['2'], 4⟩] : Db), r.number = ['6'] →
      updRow ['6'] 10 r = { r with balance := r.balance + 10 }) :=
  update_balance_rereads_authoritative [⟨['5'], ['1'], 3⟩, ⟨['6'], ['2'], 4⟩]
    ⟨['6'], ['2'], 4⟩ ⟨['6'], ['2'], 4⟩ 10 (by decide)

/-- C10: the transfer path never rejects a non-positive amount — with a
logged-in source of non-negative balance and a valid, existing, distinct
destination, an amount `≤ 0` passes all four checks and is applied,
subtracting it from the source rows and adding it to the destination rows,
so a negative amount moves money from the destination to the source. -/
theorem do_transfer_accepts_nonpositive (db : Db) (src tc srow : CardRec)
    (number : List Char) (money : Int) (hneg : money ≤ 0)
    (hbal : 0 ≤ src.balance) (hne : ¬ number = src.number)
    (hv : is_valid_card_number number = some true)
    (htc : check_card db number = some tc)
    (hsrow : check_card db src.number = some srow) :
    ∃ db', do_transfer db src number money =
        (.ok, db', { src with balance := srow.balance + money * -1 }) ∧
      (check_card db' src.number).map CardRec.balance =
        some (srow.balance - money) ∧
      (check_card db' number).map CardRec.balance =
        some (tc.balance + money) := by
  have h4 : ¬ money > src.balance := by omega
  have htcn : tc.number = number := check_card_number htc
  have hsn : srow.number = src.number := check_card_number hsrow
  have hne2 : ¬ srow.number = tc.number := by
    rw [hsn, htcn]
    intro hcon
    exact hne hcon.symm
  have hne3 : ¬ tc.number = src.number := by
    rw [htcn]
    exact hne
  refine ⟨_, do_transfer_ok hne hv htc h4 hsrow, ?_, ?_⟩
  · rw [check_card_updateDb, check_card_updateDb, hsrow, Option.map_some',
      updRow_of_eq hsn, Option.map_some',
      updRow_of_ne (show ¬ ({ srow with balance :=
        srow.balance + money * -1 } : CardRec).number = tc.number from hne2),
      Option.map_some']
    show some (srow.balance + money * -1) = some (srow.balance - money)
    congr 1
    omega
  · rw [check_card_updateDb, check_card_updateDb, htc, Option.map_some',
      updRow_of_ne hne3, Option.map_some', updRow_of_eq rfl, Option.map_some']

/-- Witness for C10: transferring `-3` between two stored accounts moves 3
from the destination to the source. -/
theorem do_transfer_accepts_nonpositive_witness :
    ∃ db', do_transfer
        [⟨['0'], ['1'], 5⟩, ⟨['0', '0'], ['2'], 9⟩] ⟨['0'], ['1'], 5⟩
        ['0', '0'] (-3) =
        (.ok, db', ⟨['0'], ['1'], (5 : Int) + (-3) * -1⟩) ∧
      (check_card db' ['0']).map CardRec.balance = some ((5 : Int) - (-3)) ∧
      (check_card db' ['0', '0']).map CardRec.balance =
        some ((9 : Int) + (-3)) :=
  do_transfer_accepts_nonpositive
    [⟨['0'], ['1'], 5⟩, ⟨['0', '0'], ['2'], 9⟩] ⟨['0'], ['1'], 5⟩
    ⟨['0', '0'], ['2'], 9⟩ ⟨['0'], ['1'], 5⟩ ['0', '0'] (-3)
    (by decide) (by decide) (by decide) (by decide) (by decide) (by decide)

/-- C6 counterexample: with generated identifiers, source balance 1 and
destination balance −5 (negative balances are reachable, e.g. through a
negative income), `transfer(A, B, 1)` succeeds, but the reverse
`transfer(B, A, 1)` fails the funds check (1 > −4), so neither balance is
restored: the round trip as stated is false. -/
theorem transfer_round_trip_counterexample :
    do_transfer [⟨create_card 1, pad4 1, 1⟩, ⟨create_card 2, pad4 2, -5⟩]
        ⟨create_card 1, pad4 1, 1⟩ (create_card 2) 1 =
      (.ok, [⟨create_card 1, pad4 1, 0⟩, ⟨create_card 2, pad4 2, -4⟩],
        ⟨create_card 1, pad4 1, 0⟩) ∧
    check_card [⟨create_card 1, pad4 1, 0⟩, ⟨create_card 2, pad4 2, -4⟩]
        (create_card 2) = some ⟨create_card 2, pad4 2, -4⟩ ∧
    do_transfer [⟨create_card 1, pad4 1, 0⟩, ⟨create_card 2, pad4 2, -4⟩]
        ⟨create_card 2, pad4 2, -4⟩ (create_card 1) 1 =
      (.notEnoughMoney,
        [⟨create_card 1, pad4 1, 0⟩, ⟨create_card 2, pad4 2, -4⟩],
        ⟨create_card 2, pad4 2, -4⟩) ∧
    (check_card [⟨create_card 1, pad4 1, 0⟩, ⟨create_card 2, pad4 2, -4⟩]
        (create_card 1)).map CardRec.balance ≠ some 1 ∧
    (check_card [⟨create_card 1, pad4 1, 0⟩, ⟨create_card 2, pad4 2, -4⟩]
        (create_card 2)).map CardRec.balance ≠ some (-5) := by
  decide

/-- C6 amended: for distinct existing accounts `A` and `B` with Luhn-valid
identifiers, an amount within `A`'s balance, and — the amendment forced by
the counterexample — a non-negative pre-transfer balance of `B`,
`transfer(A, B, amount)` succeeds and the reverse `transfer(B, A, amount)`
(with `B` re-read from storage) also succeeds and restores the whole
stored table, in particular both balances, to the pre-transfer state. -/
theorem transfer_round_trip (db : Db) (a b : List Char) (A B : CardRec)
    (money : Int) (hA : check_card db a = some A)
    (hB : check_card db b = some B) (hab : ¬ a = b)
    (hva : is_valid_card_number a = some true)
    (hvb : is_valid_card_number b = some true)
    (hm : money ≤ A.balance) (hB0 : 0 ≤ B.balance) :
    ∃ db1 A1, do_transfer db A b money = (.ok, db1, A1) ∧
      ∃ B1, check_card db1 b = some B1 ∧
        ∃ B2, do_transfer db1 B1 a money = (.ok, db, B2) := by
  have hAn : A.number = a := check_card_number hA
  have hBn : B.number = b := check_card_number hB
  have hba : ¬ b = a := fun h => hab h.symm
  have h1 : ¬ b = A.number := by
    rw [hAn]
    exact hba
  have h4 : ¬ money > A.balance := by omega
  have hsrow : check_card db A.number = some A := by
    rw [hAn]
    exact hA
  have t1 := do_transfer_ok h1 hvb hB h4 hsrow
  have hBA : ¬ B.number = A.number := by
    rw [hAn, hBn]
    exact hba
  have hAB : ¬ A.number = B.number := by
    rw [hAn, hBn]
    exact hab
  have hB1 : check_card
      (updateDb (updateDb db A.number (money * -1)) B.number money) b =
      some { B with balance := B.balance + money } := by
    rw [check_card_updateDb, check_card_updateDb, hB, Option.map_some',
      updRow_of_ne hBA, Option.map_some', updRow_of_eq rfl]
  have h1' : ¬ a = ({ B with balance := B.balance + money } : CardRec).number := by
    show ¬ a = B.number
    rw [hBn]
    exact hab
  have h4' : ¬ money > ({ B with balance := B.balance + money } : CardRec).balance := by
    show ¬ money > B.balance + money
    omega
  have hA1 : check_card
      (updateDb (updateDb db A.number (money * -1)) B.number money) a =
      some { A with balance := A.balance + money * -1 } := by
    rw [check_card_updateDb, check_card_updateDb, hA, Option.map_some',
      updRow_of_eq rfl, Option.map_some',
      updRow_of_ne (show ¬ ({ A with balance :=
        A.balance + money * -1 } : CardRec).number = B.number from hAB)]
  have hBself : check_card db B.number = some B := by
    rw [hBn]
    exact hB
  have hsrow' : check_card
      (updateDb (updateDb db A.number (money * -1)) B.number money)
      ({ B with balance := B.balance + money } : CardRec).number =
      some { B with balance := B.balance + money } := by
    show check_card _ B.number = _
    rw [check_card_updateDb, check_card_updateDb, hBself, Option.map_some',
      updRow_of_ne hBA, Option.map_some', updRow_of_eq rfl]
  have t2 := do_transfer_ok h1' hva hA1 h4' hsrow'
  have hfinal : updateDb (updateDb
      (updateDb (updateDb db A.number (money * -1)) B.number money)
      ({ B with balance := B.balance + money } : CardRec).number (money * -1))
      ({ A with balance := A.balance + money * -1 } : CardRec).number money =
      db := by
    show updateDb (updateDb (updateDb (updateDb db A.number (money * -1))
      B.number money) B.number (money * -1)) A.number money = db
    rw [updateDb_updateDb_same (updateDb db A.number (money * -1)) B.number]
    have hz : money + money * -1 = 0 := by omega
    rw [hz, updateDb_zero, updateDb_updateDb_same db A.number]
    have hz' : money * -1 + money = 0 := by omega
    rw [hz', updateDb_zero]
  rw [hfinal] at t2
  exact ⟨_, _, t1, _, hB1, _, t2⟩

/-- Witness for the amended C6 on a concrete two-account table. -/
theorem transfer_round_trip_witness :
    ∃ db1 A1, do_transfer
        [⟨create_card 1, pad4 1, 7⟩, ⟨create_card 2, pad4 2, 5⟩]
        ⟨create_card 1, pad4 1, 7⟩ (create_card 2) 3 = (.ok, db1, A1) ∧
      ∃ B1, check_card db1 (create_card 2) = some B1 ∧
        ∃ B2, do_transfer db1 B1 (create_card 1) 3 =
          (.ok, [⟨create_card 1, pad4 1, 7⟩, ⟨create_card 2, pad4 2, 5⟩],
            B2) :=
  transfer_round_trip
    [⟨create_card 1, pad4 1, 7⟩, ⟨create_card 2, pad4 2, 5⟩]
    (create_card 1) (create_card 2)
    ⟨create_card 1, pad4 1, 7⟩ ⟨create_card 2, pad4 2, 5⟩ 3
    (by decide) (by decide) (by decide) (by decide) (by decide)
    (by decide) (by decide)

/-- C5 counterexample: the validator performs no length check — the
1-character string `"0"` is malformed (wrong length) yet accepted as valid
rather than rejected — and on `"a0"`, whose leading character is not a
digit, `int(...)` raises a `ValueError` (modelled `none`) instead of
returning false. -/
theorem is_valid_malformed_counterexample :
    is_valid_card_number ['0'] = some true ∧
    (['0'] : List Char).length ≠ 16 ∧
    is_valid_card_number ['a', '0'] = none := by
  decide

/-- C5 amended: `is_valid_card_number` returns a boolean exactly for a
nonempty input all of whose characters before the last are decimal digits;
on such inputs the boolean is whether the final character matches the
recomputed checksum digit — with no restriction on the input's length.  On
the empty string, or when a character before the last is a non-digit, the
function raises (`IndexError` / `ValueError`, modelled `none`) instead of
returning false. -/
theorem is_valid_total_characterization (s : List Char) :
    ((∃ bv, is_valid_card_number s = some bv) ↔
      (¬ s = [] ∧ ∀ c ∈ s.dropLast, c.isDigit = true)) ∧
    (∀ k, calculate_luhn_checksum s.dropLast = some k →
      ∀ last, s.getLast? = some last →
      is_valid_card_number s = some (digitToChar k = last : Bool)) := by
  constructor
  · constructor
    · rintro ⟨bv, hbv⟩
      unfold is_valid_card_number at hbv
      rcases hcs : calculate_luhn_checksum s.dropLast with _ | k
      · rw [hcs] at hbv
        exact absurd hbv (by simp)
      · rw [hcs] at hbv
        rcases hl : s.getLast? with _ | last
        · rw [hl] at hbv
          exact absurd hbv (by simp)
        · refine ⟨?_, ?_⟩
          · intro hnil
            rw [hnil] at hl
            exact absurd hl (by simp)
          · have hsome : ∃ ds, strToDigits s.dropLast = some ds := by
              unfold calculate_luhn_checksum at hcs
              rcases h' : strToDigits s.dropLast with _ | ds
              · rw [h'] at hcs
                exact absurd hcs (by simp)
              · exact ⟨ds, rfl⟩
            exact (strToDigits_isSome_iff s.dropLast).mp hsome
    · rintro ⟨hne, hdig⟩
      obtain ⟨ds, hds⟩ := (strToDigits_isSome_iff s.dropLast).mpr hdig
      unfold is_valid_card_number calculate_luhn_checksum
      rw [hds]
      rcases hl : s.getLast? with _ | last
      · exact absurd (List.getLast?_eq_none_iff.mp hl) hne
      · exact ⟨_, rfl⟩
  · intro k hk last hl
    unfold is_valid_card_number
    rw [hk, hl]

/-- Witness for the amended C5: the two-character all-digit input `"40"`
gets a boolean verdict (here: false, as the checksum of `"4"` is 2). -/
theorem is_valid_total_characterization_witness :
    is_valid_card_number ['4', '0'] = some (digitToChar 2 = '0' : Bool) :=
  (is_valid_total_characterization ['4', '0']).2 2 (by decide) '0' (by decide)

end Banking

namespace Banking

/-! ### Decimal representation of the random segment -/

lemma digitsRevFuel_eq (fuel : Nat) :
    ∀ n, n ≤ fuel → digitsRevFuel fuel n = Nat.digits 10 n := by
  induction fuel with
  | zero =>
    intro n hn
    have h0 : n = 0 := Nat.le_zero.mp hn
    subst h0
    simp [digitsRevFuel]
  | succ fuel ih =>
    intro n hn
    cases n with
    | zero => simp [digitsRevFuel]
    | succ m =>
      have hdiv : (m + 1) / 10 ≤ fuel := by
        have hlt : (m + 1) / 10 < m + 1 :=
          Nat.div_lt_self (Nat.succ_pos m) (by norm_num)
        omega
      show ((m + 1) % 10) :: digitsRevFuel fuel ((m + 1) / 10) = _
      rw [ih _ hdiv,
        Nat.digits_def' (by norm_num : (1 : Nat) < 10) (Nat.succ_pos m)]

lemma digitsRev_eq (n : Nat) : digitsRev n = Nat.digits 10 n :=
  digitsRevFuel_eq n n le_rfl

lemma digits_ten_pow_len : (Nat.digits 10 999999999).length = 9 := by
  rw [← digitsRev_eq]
  decide

lemma natRepr_length_le (n : Nat) (h : n ≤ 999999999) :
    (natRepr n).length ≤ 9 := by
  unfold natRepr
  rw [List.length_map, List.length_reverse, digitsRev_eq]
  calc (Nat.digits 10 n).length
      ≤ (Nat.digits 10 999999999).length := Nat.le_digits_len_le 10 n 999999999 h
    _ = 9 := digits_ten_pow_len

lemma pad9_length (n : Nat) (h : n ≤ 999999999) : (pad9 n).length = 9 := by
  unfold pad9
  rw [List.length_append, List.length_replicate]
  have := natRepr_length_le n h
  omega

lemma natRepr_digits (n : Nat) : ∀ c ∈ natRepr n, c.isDigit = true := by
  unfold natRepr
  intro c hc
  rw [List.mem_map] at hc
  obtain ⟨d, hd, rfl⟩ := hc
  rw [List.mem_reverse, digitsRev_eq] at hd
  exact digitToChar_isDigit d (Nat.digits_lt_base (by norm_num) hd)

lemma pad9_digits (n : Nat) : ∀ c ∈ pad9 n, c.isDigit = true := by
  unfold pad9
  intro c hc
  rcases List.mem_append.mp hc with hc | hc
  · rw [List.eq_of_mem_replicate hc]
    decide
  · exact natRepr_digits n c hc

lemma foldl_val_replicate_zero (k : Nat) :
    List.foldl (fun acc c => 10 * acc + (c.toNat - '0'.toNat)) 0
      (List.replicate k '0') = 0 := by
  induction k with
  | zero => rfl
  | succ k ih =>
    rw [List.replicate_succ, List.foldl_cons]
    show List.foldl _ (10 * 0 + ('0'.toNat - '0'.toNat)) _ = 0
    have h0 : 10 * 0 + ('0'.toNat - '0'.toNat) = 0 := by decide
    rw [h0]
    exact ih

lemma foldl_digits_reverse (l : List Nat) : ∀ acc : Nat,
    List.foldl (fun a d => 10 * a + d) acc l.reverse =
      acc * 10 ^ l.length + Nat.ofDigits 10 l := by
  induction l with
  | nil =>
    intro acc
    simp [Nat.ofDigits_nil]
  | cons d ds ih =>
    intro acc
    rw [List.reverse_cons, List.foldl_append, ih acc, List.foldl_cons,
      List.foldl_nil, Nat.ofDigits_cons, List.length_cons, pow_succ]
    ring

lemma foldl_val_map (l : List Nat) (h : ∀ d ∈ l, d < 10) : ∀ acc : Nat,
    List.foldl (fun a c => 10 * a + (c.toNat - '0'.toNat)) acc
      (l.map digitToChar) =
    List.foldl (fun a d => 10 * a + d) acc l := by
  induction l with
  | nil => intro acc; rfl
  | cons d ds ih =>
    intro acc
    rw [List.map_cons, List.foldl_cons, List.foldl_cons]
    show List.foldl _ (10 * acc + ((digitToChar d).toNat - '0'.toNat)) _ = _
    rw [digitToChar_val d (h d (List.mem_cons_self d ds))]
    exact ih (fun x hx => h x (List.mem_cons_of_mem d hx)) _

lemma valOfChars_pad9 (r : Nat) (h : r ≤ 999999999) :
    valOfChars (pad9 r) = r := by
  unfold valOfChars pad9
  rw [List.foldl_append, foldl_val_replicate_zero]
  unfold natRepr
  rw [digitsRev_eq]
  rw [foldl_val_map ((Nat.digits 10 r).reverse)
    (fun d hd => Nat.digits_lt_base (by norm_num) (List.mem_reverse.mp hd))]
  rw [foldl_digits_reverse (Nat.digits 10 r) 0]
  simp [Nat.ofDigits_digits]

lemma pad9_inj {r r' : Nat} (h : r ≤ 999999999) (h' : r' ≤ 999999999)
    (he : pad9 r = pad9 r') : r = r' := by
  have hv := valOfChars_pad9 r h
  rw [he, valOfChars_pad9 r' h'] at hv
  omega

lemma pad9_ne_zeros {r : Nat} (h1 : 1 ≤ r) (h2 : r ≤ 999999999) :
    ¬ pad9 r = List.replicate 9 '0' := by
  intro he
  have hv := valOfChars_pad9 r h2
  rw [he] at hv
  have h0 : valOfChars (List.replicate 9 '0') = 0 := by decide
  omega

lemma strToDigits_inn_pad9 (r : Nat) :
    ∃ ds, strToDigits (inn ++ pad9 r) = some ds := by
  apply (strToDigits_isSome_iff _).mpr
  intro c hc
  rcases List.mem_append.mp hc with hc | hc
  · fin_cases hc <;> decide
  · exact pad9_digits r c hc

lemma create_card_split (r : Nat) :
    ∃ ds, strToDigits (inn ++ pad9 r) = some ds ∧
      calculate_luhn_checksum (inn ++ pad9 r) =
        some (luhnChecksumDigits ds) ∧
      create_card r = (inn ++ pad9 r) ++ [digitToChar (luhnChecksumDigits ds)] := by
  obtain ⟨ds, hds⟩ := strToDigits_inn_pad9 r
  have hcs : calculate_luhn_checksum (inn ++ pad9 r) =
      some (luhnChecksumDigits ds) := by
    unfold calculate_luhn_checksum
    rw [hds]
    rfl
  refine ⟨ds, hds, hcs, ?_⟩
  unfold create_card
  rw [hcs]

lemma create_card_valid (r : Nat) :
    is_valid_card_number (create_card r) = some true := by
  obtain ⟨ds, hds, _, he⟩ := create_card_split r
  rw [he]
  exact valid_append_checksum hds

lemma create_card_length (r : Nat) (h : r ≤ 999999999) :
    (create_card r).length = 16 := by
  obtain ⟨ds, _, _, he⟩ := create_card_split r
  rw [he, List.length_append, List.length_append, pad9_length r h]
  rfl

lemma create_card_inj {r r' : Nat} (h2 : r ≤ 999999999)
    (h2' : r' ≤ 999999999) (hcc : create_card r = create_card r') :
    r = r' := by
  obtain ⟨ds, _, _, he⟩ := create_card_split r
  obtain ⟨ds', _, _, he'⟩ := create_card_split r'
  rw [he, he', List.append_assoc, List.append_assoc] at hcc
  have h6 : (inn ++ (pad9 r ++ [digitToChar (luhnChecksumDigits ds)])).length =
      (inn ++ (pad9 r' ++ [digitToChar (luhnChecksumDigits ds')])).length := by
    rw [hcc]
  have hstep := List.append_inj hcc rfl
  have htail := hstep.2
  have hlen : (pad9 r).length = (pad9 r').length := by
    rw [pad9_length r h2, pad9_length r' h2']
  have hpads := List.append_inj htail hlen
  exact pad9_inj h2 h2' hpads.1

end Banking

namespace Banking

/-- C8 counterexample: the all-zero 9-digit account segment `"000000000"`
is not a possible outcome — the code draws `randint(1, 999999999)`, whose
lower bound excludes 0, and the zero segment would require the draw 0. -/
theorem create_card_zero_segment_impossible :
    ¬ ∃ r, 1 ≤ r ∧ r ≤ 999999999 ∧ pad9 r = List.replicate 9 '0' :=
  fun ⟨_, h1, h2, hz⟩ => pad9_ne_zeros h1 h2 hz

/-- C8 amended: for every draw `r` of `randint(1, 999999999)` — a range
whose lower bound 1 excludes the all-zero segment — the generated
identifier is the 6-digit issuer prefix `400000`, the 9-digit zero-padded
decimal of `r`, and one trailing checksum digit computed over the 15-digit
prefix+segment, a 16-digit string accepted by the validator. -/
theorem create_card_structure (r : Nat) (h1 : 1 ≤ r) (h2 : r ≤ 999999999) :
    (pad9 r).length = 9 ∧ (∀ c ∈ pad9 r, c.isDigit = true) ∧
    ∃ k, calculate_luhn_checksum (inn ++ pad9 r) = some k ∧
      create_card r = (inn ++ pad9 r) ++ [digitToChar k] ∧
      (create_card r).length = 16 ∧
      is_valid_card_number (create_card r) = some true := by
  obtain ⟨ds, _, hcs, he⟩ := create_card_split r
  exact ⟨pad9_length r h2, pad9_digits r, luhnChecksumDigits ds, hcs, he,
    create_card_length r h2, create_card_valid r⟩

/-- Witness for the amended C8 at the concrete draw 123456789. -/
theorem create_card_structure_witness :
    (pad9 123456789).length = 9 ∧
    (∀ c ∈ pad9 123456789, c.isDigit = true) ∧
    ∃ k, calculate_luhn_checksum (inn ++ pad9 123456789) = some k ∧
      create_card 123456789 = (inn ++ pad9 123456789) ++ [digitToChar k] ∧
      (create_card 123456789).length = 16 ∧
      is_valid_card_number (create_card 123456789) = some true :=
  create_card_structure 123456789 (by decide) (by decide)

end Banking

namespace Banking

/-! ### Reachable tables and identifier uniqueness -/

lemma card_update_balance_fst (db : Db) (card : CardRec) (money : Int) :
    (card_update_balance db card money).1 = updateDb db card.number money := by
  unfold card_update_balance
  dsimp only
  rcases check_card (updateDb db card.number money) card.number with _ | row <;> rfl

lemma do_transfer_db_shape (db : Db) (src : CardRec) (number : List Char)
    (money : Int) :
    (do_transfer db src number money).2.1 = db ∨
    (∃ n1 m1, (do_transfer db src number money).2.1 = updateDb db n1 m1) ∨
    (∃ n1 m1 n2 m2, (do_transfer db src number money).2.1 =
      updateDb (updateDb db n1 m1) n2 m2) := by
  by_cases h1 : number = src.number
  · rw [do_transfer_self db money h1]
    exact Or.inl rfl
  · rcases hv : is_valid_card_number number with _ | b
    · rw [do_transfer_fatal_parse db money h1 hv]
      exact Or.inl rfl
    · cases b with
      | false =>
        rw [do_transfer_invalid db money h1 hv]
        exact Or.inl rfl
      | true =>
        rcases htc : check_card db number with _ | tc
        · rw [do_transfer_unknown money h1 hv htc]
          exact Or.inl rfl
        · by_cases hm : money > src.balance
          · rw [do_transfer_insufficient h1 hv htc hm]
            exact Or.inl rfl
          · rcases hs : check_card db src.number with _ | srow
            · rw [do_transfer_fatal_src h1 hv htc hm hs]
              exact Or.inr (Or.inl ⟨src.number, money * -1, rfl⟩)
            · rw [do_transfer_ok h1 hv htc hm hs]
              exact Or.inr (Or.inr
                ⟨src.number, money * -1, tc.number, money, rfl⟩)

lemma do_transfer_map_number (db : Db) (src : CardRec) (number : List Char)
    (money : Int) :
    ((do_transfer db src number money).2.1).map CardRec.number =
      db.map CardRec.number := by
  rcases do_transfer_db_shape db src number money with
    h | ⟨n1, m1, h⟩ | ⟨n1, m1, n2, m2, h⟩
  · rw [h]
  · rw [h, updateDb_map_number]
  · rw [h, updateDb_map_number, updateDb_map_number]

lemma mem_updateDb_number {rec' : CardRec} {db : Db} {n : List Char}
    {m : Int} (h : rec' ∈ updateDb db n m) :
    ∃ rec ∈ db, rec'.number = rec.number := by
  unfold updateDb at h
  obtain ⟨rec, hrec, hrw⟩ := List.mem_map.mp h
  exact ⟨rec, hrec, by rw [← hrw, updRow_number]⟩

lemma do_transfer_mem_number {rec' : CardRec} (db : Db) (src : CardRec)
    (number : List Char) (money : Int)
    (h : rec' ∈ (do_transfer db src number money).2.1) :
    ∃ rec ∈ db, rec'.number = rec.number := by
  rcases do_transfer_db_shape db src number money with
    hs | ⟨n1, m1, hs⟩ | ⟨n1, m1, n2, m2, hs⟩
  · rw [hs] at h
    exact ⟨rec', h, rfl⟩
  · rw [hs] at h
    exact mem_updateDb_number h
  · rw [hs] at h
    obtain ⟨r1, hr1, he1⟩ := mem_updateDb_number h
    obtain ⟨r0, hr0, he0⟩ := mem_updateDb_number hr1
    exact ⟨r0, hr0, he1.trans he0⟩

/-- The invariant behind identifier uniqueness: if every stored record was
produced by a creation draw not occurring among the upcoming draws, and
the upcoming draws are in range and pairwise distinct, uniqueness of
identifiers is preserved by every operation sequence. -/
lemma unique_identifiers_inv (ops : List Op) : ∀ db : Db,
    uniqueIdentifiers db →
    (∀ rec ∈ db, ∃ r, 1 ≤ r ∧ r ≤ 999999999 ∧ rec.number = create_card r ∧
      r ∉ createDraws ops) →
    (∀ r ∈ createDraws ops, 1 ≤ r ∧ r ≤ 999999999) →
    (createDraws ops).Nodup →
    uniqueIdentifiers (applyOps db ops) := by
  induction ops with
  | nil =>
    intro db hu _ _ _
    exact hu
  | cons op rest ih =>
    intro db hu hinv hrange hnodup
    show uniqueIdentifiers (applyOps (applyOp db op) rest)
    cases op with
    | create r p =>
      have hcd : createDraws (Op.create r p :: rest) =
          r :: createDraws rest := rfl
      rw [hcd] at hinv hrange hnodup
      have hrr := hrange r (List.mem_cons_self r (createDraws rest))
      have hnotin : r ∉ createDraws rest := (List.nodup_cons.mp hnodup).1
      apply ih
      · show uniqueIdentifiers (db ++ [⟨create_card r, pad4 p, 0⟩])
        unfold uniqueIdentifiers at hu ⊢
        rw [List.map_append, List.nodup_append]
        refine ⟨hu, by simp, ?_⟩
        intro x hx hy
        obtain ⟨rec, hrec, hrecnum⟩ := List.mem_map.mp hx
        obtain ⟨r0, hr01, hr02, hr0num, hr0notin⟩ := hinv rec hrec
        have hxc : x = create_card r := by
          have := List.mem_map.mp hy
          obtain ⟨q, hq, hqx⟩ := this
          rw [List.mem_singleton.mp hq] at hqx
          rw [← hqx]
        have hr0r : r0 = r :=
          create_card_inj hr02 hrr.2 (by rw [← hr0num, hrecnum, hxc])
        rw [hr0r] at hr0notin
        exact hr0notin (List.mem_cons_self r (createDraws rest))
      · intro rec hrec
        rcases List.mem_append.mp hrec with hrec' | hrec'
        · obtain ⟨r0, ha, hb, hc, hd⟩ := hinv rec hrec'
          exact ⟨r0, ha, hb, hc, fun hcon =>
            hd (List.mem_cons_of_mem r hcon)⟩
        · have : rec = ⟨create_card r, pad4 p, 0⟩ := List.mem_singleton.mp hrec'
          exact ⟨r, hrr.1, hrr.2, by rw [this], hnotin⟩
      · intro r' hr'
        exact hrange r' (List.mem_cons_of_mem r hr')
      · exact (List.nodup_cons.mp hnodup).2
    | addIncome n pin inc =>
      have hcd : createDraws (Op.addIncome n pin inc :: rest) =
          createDraws rest := rfl
      rw [hcd] at hinv hrange hnodup
      rcases hlog : check_card_pin db n pin with _ | card
      · apply ih
        · show uniqueIdentifiers (applyOp db (.addIncome n pin inc))
          unfold applyOp
          dsimp only
          rw [hlog]
          exact hu
        · intro rec hrec
          have hdb : applyOp db (.addIncome n pin inc) = db := by
            unfold applyOp
            dsimp only
            rw [hlog]
          rw [hdb] at hrec
          exact hinv rec hrec
        · exact hrange
        · exact hnodup
      · apply ih
        · show uniqueIdentifiers (applyOp db (.addIncome n pin inc))
          unfold applyOp
          dsimp only
          rw [hlog]
          dsimp only
          unfold uniqueIdentifiers
          rw [card_update_balance_fst, updateDb_map_number]
          exact hu
        · intro rec hrec
          have hrec2 : rec ∈ (card_update_balance db card inc).1 := by
            have : applyOp db (.addIncome n pin inc) =
                (card_update_balance db card inc).1 := by
              unfold applyOp
              dsimp only
              rw [hlog]
            rw [← this]
            exact hrec
          rw [card_update_balance_fst] at hrec2
          obtain ⟨rec0, hrec0, hnum⟩ := mem_updateDb_number hrec2
          obtain ⟨r0, ha, hb, hc, hd⟩ := hinv rec0 hrec0
          exact ⟨r0, ha, hb, hnum.trans hc, hd⟩
        · exact hrange
        · exact hnodup
    | transfer sn sp nn mm =>
      have hcd : createDraws (Op.transfer sn sp nn mm :: rest) =
          createDraws rest := rfl
      rw [hcd] at hinv hrange hnodup
      rcases hlog : check_card_pin db sn sp with _ | src
      · apply ih
        · show uniqueIdentifiers (applyOp db (.transfer sn sp nn mm))
          unfold applyOp
          dsimp only
          rw [hlog]
          exact hu
        · intro rec hrec
          have hdb : applyOp db (.transfer sn sp nn mm) = db := by
            unfold applyOp
            dsimp only
            rw [hlog]
          rw [hdb] at hrec
          exact hinv rec hrec
        · exact hrange
        · exact hnodup
      · apply ih
        · show uniqueIdentifiers (applyOp db (.transfer sn sp nn mm))
          unfold applyOp
          dsimp only
          rw [hlog]
          dsimp only
          unfold uniqueIdentifiers
          rw [do_transfer_map_number]
          exact hu
        · intro rec hrec
          have hrec2 : rec ∈ (do_transfer db src nn mm).2.1 := by
            have : applyOp db (.transfer sn sp nn mm) =
                (do_transfer db src nn mm).2.1 := by
              unfold applyOp
              dsimp only
              rw [hlog]
            rw [← this]
            exact hrec
          obtain ⟨rec0, hrec0, hnum⟩ := do_transfer_mem_number db src nn mm hrec2
          obtain ⟨r0, ha, hb, hc, hd⟩ := hinv rec0 hrec0
          exact ⟨r0, ha, hb, hnum.trans hc, hd⟩
        · exact hrange
        · exact hnodup
    | closeAccount n pin =>
      have hcd : createDraws (Op.closeAccount n pin :: rest) =
          createDraws rest := rfl
      rw [hcd] at hinv hrange hnodup
      rcases hlog : check_card_pin db n pin with _ | card
      · apply ih
        · show uniqueIdentifiers (applyOp db (.closeAccount n pin))
          unfold applyOp
          dsimp only
          rw [hlog]
          exact hu
        · intro rec hrec
          have hdb : applyOp db (.closeAccount n pin) = db := by
            unfold applyOp
            dsimp only
            rw [hlog]
          rw [hdb] at hrec
          exact hinv rec hrec
        · exact hrange
        · exact hnodup
      · apply ih
        · show uniqueIdentifiers (applyOp db (.closeAccount n pin))
          unfold applyOp
          dsimp only
          rw [hlog]
          dsimp only
          unfold uniqueIdentifiers deleteCard
          exact List.Nodup.sublist
            ((List.filter_sublist db).map CardRec.number) hu
        · intro rec hrec
          have hrec2 : rec ∈ deleteCard db card.number := by
            have : applyOp db (.closeAccount n pin) =
                deleteCard db card.number := by
              unfold applyOp
              dsimp only
              rw [hlog]
            rw [← this]
            exact hrec
          unfold deleteCard at hrec2
          obtain ⟨r0, ha, hb, hc, hd⟩ :=
            hinv rec (List.mem_of_mem_filter hrec2)
          exact ⟨r0, ha, hb, hc, hd⟩
        · exact hrange
        · exact hnodup

end Banking

namespace Banking

/-- C9 counterexample: two account creations whose random draws collide
(both `randint` calls returning 1) produce two stored records with the
same identifier — the generator performs no uniqueness check, so the
exactly-one-record-per-identifier invariant is not preserved. -/
theorem duplicate_identifiers_reachable :
    applyOps [] [.create 1 1, .create 1 2] =
      [⟨create_card 1, pad4 1, 0⟩, ⟨create_card 1, pad4 2, 0⟩] ∧
    ¬ uniqueIdentifiers (applyOps [] [.create 1 1, .create 1 2]) := by
  decide

/-- C9 amended: identifier uniqueness is conditional on the random draws —
in every table reachable from the empty database by create / add-income /
transfer / close operations whose creation draws are in `randint`'s range
and pairwise distinct, exactly one record exists per identifier.  When two
creation draws collide, duplicates are reachable. -/
theorem unique_identifiers_of_distinct_draws (ops : List Op)
    (hrange : ∀ r ∈ createDraws ops, 1 ≤ r ∧ r ≤ 999999999)
    (hnodup : (createDraws ops).Nodup) :
    uniqueIdentifiers (applyOps [] ops) := by
  apply unique_identifiers_inv ops []
  · show (([] : Db).map CardRec.number).Nodup
    exact List.nodup_nil
  · intro rec hrec
    exact absurd hrec (List.not_mem_nil rec)
  · exact hrange
  · exact hnodup

/-- Witness for the amended C9: two creations with distinct draws followed
by an income and a transfer keep identifiers unique. -/
theorem unique_identifiers_of_distinct_draws_witness :
    uniqueIdentifiers (applyOps []
      [.create 1 1, .create 2 2,
        .addIncome (create_card 1) (pad4 1) 50,
        .transfer (create_card 1) (pad4 1) (create_card 2) 20]) :=
  unique_identifiers_of_distinct_draws
    [.create 1 1, .create 2 2,
      .addIncome (create_card 1) (pad4 1) 50,
      .transfer (create_card 1) (pad4 1) (create_card 2) 20]
    (by decide) (by decide)

end Banking
